import Mathlib

/-!
Verification of the `mapnik_font_engine.cpp` binding shim of python-mapnik.

The shim (`export_font_engine`) exposes three static operations of mapnik's
`freetype_engine` on a host-facing class named `FontEngine`:

* `register_font(file_name)`  — forwards to `freetype_engine::register_font`;
* `register_fonts(dir)` and `register_fonts(dir, recurse)` — two explicit
  overloads forwarding to `freetype_engine::register_fonts(dir, recurse)`,
  the one-argument overload passing the concrete boolean `false`;
* `face_names()` — copies `freetype_engine::face_names()` element by element
  into a fresh `py::list`.

The engine itself (`freetype_engine`) is an external, opaque collaborator:
only its declarations are visible to the shim.  We embed the shim generically
over an abstract engine interface, and separately give a concrete engine model
built from the specification's description of the engine for the properties
that depend on engine behaviour.

Engine calls may fail (a C++ exception crossing into the host environment);
we model each engine entry point as returning `Except String` — an `error`
value is an exception carrying its message, and the shim, which installs no
handler, propagates it unchanged.
-/

/-- Abstract interface of the external `freetype_engine` collaborator, over an
opaque engine state `σ`.  Each entry point may mutate the engine's
process-wide state and may fail; `register_font` and `register_fonts` return
the engine's boolean result, `face_names` returns the engine's current
registered-face enumeration. -/
structure FreetypeEngine (σ : Type) where
  register_font : String → σ → Except String (Bool × σ)
  register_fonts : String → Bool → σ → Except String (Bool × σ)
  face_names : σ → Except String (List String × σ)

namespace FontEngine

/-- The bound static method `FontEngine.register_font`: the lambda
`[](std::string const& file_name) { return freetype_engine::register_font(file_name); }`. -/
def register_font (E : FreetypeEngine σ) (file_name : String) (s : σ) :
    Except String (Bool × σ) :=
  E.register_font file_name s

/-- The one-argument overload of `FontEngine.register_fonts`: the lambda
`[](std::string const& dir) { return freetype_engine::register_fonts(dir, false); }`. -/
def register_fonts1 (E : FreetypeEngine σ) (dir : String) (s : σ) :
    Except String (Bool × σ) :=
  E.register_fonts dir false s

/-- The two-argument overload of `FontEngine.register_fonts`: the lambda
`[](std::string const& dir, bool recurse) { return freetype_engine::register_fonts(dir, recurse); }`. -/
def register_fonts2 (E : FreetypeEngine σ) (dir : String) (recurse : Bool) (s : σ) :
    Except String (Bool × σ) :=
  E.register_fonts dir recurse s

/-- The copy loop of the bound `face_names` lambda:
`py::list out; for (auto const& name : ...) { out.append(name); } return out;`.
`out` starts empty and each `append` adds one element at the back. -/
def appendLoop (names : List String) : List String :=
  names.foldl (fun out name => out ++ [name]) []

/-- The bound static method `FontEngine.face_names`: queries the engine's
enumeration and repackages it through the copy loop into a fresh host list. -/
def face_names (E : FreetypeEngine σ) (s : σ) : Except String (List String × σ) :=
  match E.face_names s with
  | .ok (names, s2) => .ok (appendLoop names, s2)
  | .error e => .error e

end FontEngine

/-- A method binding installed by `export_font_engine` on the host-facing
class: its exposed name, its number of arguments, and whether it was bound
with `def_static`. -/
structure MethodBinding where
  name : String
  arity : Nat
  static : Bool
deriving DecidableEq, Repr

/-- The name handed to `py::class_<freetype_engine>(m, "FontEngine")`. -/
def export_font_engine_class_name : String := "FontEngine"

/-- The four `def_static` calls of `export_font_engine`, in source order:
the name each passes and the arity of the lambda it binds. -/
def export_font_engine_bindings : List MethodBinding :=
  [⟨"register_font", 1, true⟩,
   ⟨"register_fonts", 1, true⟩,
   ⟨"register_fonts", 2, true⟩,
   ⟨"face_names", 0, true⟩]

/-- `export_font_engine` binds no `py::init`: no constructor is exposed. -/
def export_font_engine_has_constructor : Bool := false

/-! ## A concrete engine model, from the specification

The engine's own source is not part of this repository (the shim only sees
its declarations), so properties that depend on engine behaviour are settled
against a model built from the specification's description of the engine. -/

/-- Modelled from the spec: the process-wide state owned by the external
`freetype_engine`, whose source is outside this repository.  `files` is the
visible filesystem — each existing font file path paired with the list of
face names its file contains (a path absent from `files` names no existing
file); `registered` is the engine's current registered-face enumeration, in
registration order. -/
structure SpecEngineState where
  files : List (String × List String)
  registered : List String
deriving DecidableEq, Repr

/-- Exception message of the spec-modelled engine for a path that names no
existing file. -/
def fileNotFoundMsg : String := "file not found"

/-- Path separator used to interpret directory containment in the
spec-modelled engine. -/
def pathSep : String := "/"

/-- Modelled from the spec: `freetype_engine::register_font`, whose source is
outside this repository.  Per the spec, a nonexistent path surfaces a failure
rather than silently returning false; for an existing file every face it
contains is registered, and the result is true when at least one face was
registered from the file. -/
def specRegisterFont (file_name : String) (s : SpecEngineState) :
    Except String (Bool × SpecEngineState) :=
  match s.files.lookup file_name with
  | none => .error fileNotFoundMsg
  | some faces =>
      .ok (!faces.isEmpty, { s with registered := s.registered ++ faces })

/-- Directory containment for the spec-modelled engine: whether file path `p`
is found when scanning directory `dir` — directly in `dir` when `recurse` is
false, anywhere below `dir` when `recurse` is true. -/
def fileInDir (dir : String) (recurse : Bool) (p : String) : Bool :=
  let d := dir.splitOn pathSep
  let pc := p.splitOn pathSep
  d.isPrefixOf pc && (if recurse then decide (d.length < pc.length)
                      else pc.length == d.length + 1)

/-- The files discovered by the spec-modelled engine when scanning `dir`. -/
def eligibleFiles (dir : String) (recurse : Bool)
    (files : List (String × List String)) : List (String × List String) :=
  files.filter (fun f => fileInDir dir recurse f.1)

/-- Modelled from the spec: `freetype_engine::register_fonts`, whose source
is outside this repository.  Registers every face of every eligible file
found in the directory (and its subdirectories when `recurse` is true), and
returns whether at least one face was registered. -/
def specRegisterFonts (dir : String) (recurse : Bool) (s : SpecEngineState) :
    Except String (Bool × SpecEngineState) :=
  let newFaces := (eligibleFiles dir recurse s.files).flatMap (fun f => f.2)
  .ok (!newFaces.isEmpty, { s with registered := s.registered ++ newFaces })

/-- Modelled from the spec: `freetype_engine::face_names`, whose source is
outside this repository.  A read of the engine's registered-face enumeration;
per the spec all state is owned by the engine and a query does not mutate it. -/
def specFaceNames (s : SpecEngineState) :
    Except String (List String × SpecEngineState) :=
  .ok (s.registered, s)

/-- The spec-modelled engine packaged as an instance of the abstract
collaborator interface consumed by the shim. -/
def specEngine : FreetypeEngine SpecEngineState :=
  ⟨specRegisterFont, specRegisterFonts, specFaceNames⟩

/-! ## Concrete sample data for witnesses -/

/-- A sample engine state with an empty filesystem and one registered face. -/
def sampleState : SpecEngineState := ⟨[], ["DejaVu Sans Book"]⟩

/-- A path naming no existing file in `emptyState`. -/
def missingPath : String := "/no/such/font.ttf"

/-- An engine state with nothing on disk and nothing registered. -/
def emptyState : SpecEngineState := ⟨[], []⟩

/-- A sample font file path. -/
def testFontPath : String := "/fonts/test.ttf"

/-- The face name the sample font file contains. -/
def testFaceName : String := "TestFace"

/-- An engine state whose filesystem holds one font file with one face. -/
def testState : SpecEngineState := ⟨[(testFontPath, [testFaceName])], []⟩

/-- `testState` after registering `testFontPath`. -/
def testStateAfter : SpecEngineState :=
  ⟨[(testFontPath, [testFaceName])], [testFaceName]⟩

/-- The exported surface the binding is expected to present: each bound name
with its arity. -/
def expectedSurface : List (String × Nat) :=
  [("register_font", 1), ("register_fonts", 1),
   ("register_fonts", 2), ("face_names", 0)]

/-! ## Helper lemmas -/

theorem foldl_append_singleton (l acc : List String) :
    l.foldl (fun out name => out ++ [name]) acc = acc ++ l := by
  induction l generalizing acc with
  | nil => simp
  | cons a t ih => simp [List.foldl, ih]

/-- The element-by-element copy loop reproduces the input list exactly. -/
theorem appendLoop_eq (l : List String) : FontEngine.appendLoop l = l := by
  simpa using foldl_append_singleton l []

theorem flatMap_sublist_of_sublist {α β : Type} (f : α → List β)
    {l₁ l₂ : List α} (h : l₁.Sublist l₂) :
    (l₁.flatMap f).Sublist (l₂.flatMap f) := by
  induction h with
  | slnil => simp
  | cons a _ ih =>
      rw [List.flatMap_cons]
      exact ih.trans (List.sublist_append_right (f a) _)
  | cons₂ a _ ih =>
      rw [List.flatMap_cons, List.flatMap_cons]
      exact ih.append_left (f a)

theorem fileInDir_mono (dir : String) (p : String)
    (h : fileInDir dir false p = true) : fileInDir dir true p = true := by
  simp [fileInDir] at h ⊢
  exact ⟨h.1, by omega⟩

theorem eligibleFiles_sublist (dir : String) (files : List (String × List String)) :
    (eligibleFiles dir false files).Sublist (eligibleFiles dir true files) := by
  unfold eligibleFiles
  induction files with
  | nil => simp
  | cons f t ih =>
      simp only [List.filter_cons]
      split_ifs with h1 h2
      · exact ih.cons₂ f
      · exact absurd (fileInDir_mono _ _ h1) h2
      · exact ih.cons f
      · exact ih

/-- Evaluation of the bound `face_names` over the spec-modelled engine: it
returns the engine's registered-face enumeration unchanged and leaves the
engine state untouched. -/
theorem specEngine_face_names_eval (s : SpecEngineState) :
    FontEngine.face_names specEngine s = Except.ok (s.registered, s) := by
  simp [FontEngine.face_names, specEngine, specFaceNames, appendLoop_eq]

/-! ## Claim theorems -/

/-- C1: for every string `file_name`, every engine and every engine state,
`register_font(file_name)` forwards `file_name` unchanged to the engine's
single-file registration routine and returns exactly what the engine
returns for that call. -/
theorem register_font_passthrough {σ : Type} (E : FreetypeEngine σ)
    (file_name : String) (s : σ) :
    FontEngine.register_font E file_name s = E.register_font file_name s := rfl

/-- C2: for every directory string, every engine and every engine state, the
one-argument `register_fonts(dir)` is the same computation as the
two-argument `register_fonts(dir, false)`: both call the engine's directory
routine with the concrete boolean `false`, so return value and resulting
engine state coincide. -/
theorem register_fonts_one_arg_equiv {σ : Type} (E : FreetypeEngine σ)
    (dir : String) (s : σ) :
    FontEngine.register_fonts1 E dir s = FontEngine.register_fonts2 E dir false s ∧
    FontEngine.register_fonts1 E dir s = E.register_fonts dir false s :=
  ⟨rfl, rfl⟩

/-- C3: whenever the engine's enumeration call succeeds with some list of
names, `face_names()` succeeds with exactly that list — same elements, same
order, no caching, sorting, deduplication or mutation — repackaged through
the element-by-element copy loop into a fresh host list. -/
theorem face_names_copies_engine_enumeration {σ : Type} (E : FreetypeEngine σ)
    (s : σ) (names : List String) (s2 : σ)
    (h : E.face_names s = Except.ok (names, s2)) :
    FontEngine.face_names E s = Except.ok (names, s2) := by
  unfold FontEngine.face_names
  rw [h]
  simp [appendLoop_eq]

/-- Witness for C3 at the spec-modelled engine and a concrete state. -/
theorem face_names_copies_engine_enumeration_witness :
    FontEngine.face_names specEngine sampleState =
      Except.ok (sampleState.registered, sampleState) :=
  face_names_copies_engine_enumeration specEngine sampleState
    sampleState.registered sampleState rfl

/-- C4: for each of the three bound operations, the bridge call produces an
error value if and only if the engine call produces that same error value:
errors surface unchanged, with no recovery, retry, suppression or
translation of content. -/
theorem errors_propagate_unchanged {σ : Type} (E : FreetypeEngine σ)
    (file_name dir : String) (recurse : Bool) (s : σ) (e : String) :
    (FontEngine.register_font E file_name s = Except.error e ↔
       E.register_font file_name s = Except.error e) ∧
    (FontEngine.register_fonts1 E dir s = Except.error e ↔
       E.register_fonts dir false s = Except.error e) ∧
    (FontEngine.register_fonts2 E dir recurse s = Except.error e ↔
       E.register_fonts dir recurse s = Except.error e) ∧
    (FontEngine.face_names E s = Except.error e ↔
       E.face_names s = Except.error e) := by
  refine ⟨Iff.rfl, Iff.rfl, Iff.rfl, ?_⟩
  unfold FontEngine.face_names
  cases hE : E.face_names s with
  | ok v => cases v; simp
  | error e2 => simp

/-- C5: over the spec-modelled engine, calling `register_font` on a path that
names no existing file surfaces a failure to the caller rather than silently
returning false. -/
theorem register_font_missing_file_fails (file_name : String)
    (s : SpecEngineState) (h : s.files.lookup file_name = none) :
    FontEngine.register_font specEngine file_name s =
      Except.error fileNotFoundMsg := by
  show specRegisterFont file_name s = Except.error fileNotFoundMsg
  unfold specRegisterFont
  rw [h]

/-- Witness for C5 at a concrete missing path and empty engine state. -/
theorem register_font_missing_file_fails_witness :
    FontEngine.register_font specEngine missingPath emptyState =
      Except.error fileNotFoundMsg :=
  register_font_missing_file_fails missingPath emptyState rfl

/-- C6: over the spec-modelled engine, two successive `face_names()` calls
with no intervening registration return the same list in the same order, and
reading does not mutate the engine's registered-face state. -/
theorem face_names_repeatable (s : SpecEngineState)
    (l₁ l₂ : List String) (s₁ s₂ : SpecEngineState)
    (h₁ : FontEngine.face_names specEngine s = Except.ok (l₁, s₁))
    (h₂ : FontEngine.face_names specEngine s₁ = Except.ok (l₂, s₂)) :
    l₂ = l₁ ∧ s₁ = s ∧ s₂ = s := by
  rw [specEngine_face_names_eval] at h₁ h₂
  simp only [Except.ok.injEq, Prod.mk.injEq] at h₁ h₂
  obtain ⟨hl₁, hs₁⟩ := h₁
  obtain ⟨hl₂, hs₂⟩ := h₂
  subst hs₁
  subst hs₂
  subst hl₁
  subst hl₂
  exact ⟨rfl, rfl, rfl⟩

/-- Witness for C6 at a concrete engine state. -/
theorem face_names_repeatable_witness :
    sampleState.registered = sampleState.registered ∧
      sampleState = sampleState ∧ sampleState = sampleState :=
  face_names_repeatable sampleState sampleState.registered
    sampleState.registered sampleState sampleState rfl rfl

/-- C7: over the spec-modelled engine, if a file contains the face
`TestFace` and `register_font` on it succeeds with `true`, then a subsequent
`face_names()` call returns a list containing `TestFace`. -/
theorem register_font_then_face_names_contains (file_name : String)
    (s s₁ s₂ : SpecEngineState) (faces l : List String)
    (hfile : s.files.lookup file_name = some faces)
    (hface : testFaceName ∈ faces)
    (hreg : FontEngine.register_font specEngine file_name s =
      Except.ok (true, s₁))
    (hnames : FontEngine.face_names specEngine s₁ = Except.ok (l, s₂)) :
    testFaceName ∈ l := by
  have hreg2 : specRegisterFont file_name s = Except.ok (true, s₁) := hreg
  unfold specRegisterFont at hreg2
  rw [hfile] at hreg2
  simp only [Except.ok.injEq, Prod.mk.injEq] at hreg2
  obtain ⟨-, hs₁⟩ := hreg2
  rw [specEngine_face_names_eval] at hnames
  simp only [Except.ok.injEq, Prod.mk.injEq] at hnames
  obtain ⟨hl, -⟩ := hnames
  subst hs₁
  subst hl
  exact List.mem_append.mpr (Or.inr hface)

/-- Witness for C7 at a concrete one-file filesystem. -/
theorem register_font_then_face_names_contains_witness :
    testFaceName ∈ [testFaceName] :=
  register_font_then_face_names_contains testFontPath testState testStateAfter
    testStateAfter [testFaceName] [testFaceName] rfl (List.mem_singleton.mpr rfl)
    rfl rfl

/-- C8: over the spec-modelled engine, both recursion modes of
`register_fonts` succeed, and the face enumeration produced without
recursion is a sublist of the one produced with recursion — so registering
with `recurse = true` yields a superset, and at least as many faces, as
`recurse = false`. -/
theorem register_fonts_recurse_monotone (dir : String) (s : SpecEngineState) :
    ∃ (bf bt : Bool) (sf st : SpecEngineState),
      FontEngine.register_fonts2 specEngine dir false s = Except.ok (bf, sf) ∧
      FontEngine.register_fonts2 specEngine dir true s = Except.ok (bt, st) ∧
      sf.registered.Sublist st.registered ∧
      (∀ x, x ∈ sf.registered → x ∈ st.registered) ∧
      sf.registered.length ≤ st.registered.length := by
  have hsub : ((eligibleFiles dir false s.files).flatMap (fun f => f.2)).Sublist
      ((eligibleFiles dir true s.files).flatMap (fun f => f.2)) :=
    flatMap_sublist_of_sublist _ (eligibleFiles_sublist dir s.files)
  have hreg : (s.registered ++
        (eligibleFiles dir false s.files).flatMap (fun f => f.2)).Sublist
      (s.registered ++
        (eligibleFiles dir true s.files).flatMap (fun f => f.2)) :=
    hsub.append_left s.registered
  exact ⟨_, _, _, _, rfl, rfl, hreg, fun x hx => hreg.subset hx, hreg.length_le⟩

/-- C9: for every directory string, recurse flag, engine and engine state,
the two-argument `register_fonts(dir, recurse)` forwards both arguments
unchanged to the engine's directory-registration routine and returns exactly
the engine's result. -/
theorem register_fonts_two_arg_passthrough {σ : Type} (E : FreetypeEngine σ)
    (dir : String) (recurse : Bool) (s : σ) :
    FontEngine.register_fonts2 E dir recurse s = E.register_fonts dir recurse s :=
  rfl

/-- C10: `export_font_engine` binds no constructor, binds every method with
`def_static`, and the exported surface is exactly `register_font` at arity 1,
`register_fonts` at arities 1 and 2, and `face_names` at arity 0 — three
distinct operation names in total. -/
theorem font_engine_binding_surface :
    export_font_engine_has_constructor = false ∧
    export_font_engine_bindings.all MethodBinding.static = true ∧
    export_font_engine_bindings.map (fun b => (b.name, b.arity)) =
      expectedSurface ∧
    (export_font_engine_bindings.map MethodBinding.name).dedup.length = 3 := by
  decide
